import Mathlib

/-!
Shallow embedding of the psila-nrf52 radio/timer driver (src/radio.rs,
src/timer.rs).  Hardware registers visible to the driver are modelled as
fields of explicit state records; register writes become functional
updates; the `assert!`/`panic!` paths become an explicit failure flag on
the result; byte values are `Nat` with masking where the code masks.
-/

set_option maxRecDepth 100000
set_option maxHeartbeats 1000000

namespace PsilaNrf52

/-! ### Byte-buffer helpers

`writeSeq dst start src` models Rust's
`dst[start .. start + src.len()].copy_from_slice(src)` on a fixed-size
DMA buffer, and `seg l start len` models the borrowed slice
`l[start .. start + len]`. -/

def writeSeq (dst : List Nat) (start : Nat) (src : List Nat) : List Nat :=
  (List.range dst.length).map fun i =>
    if start ≤ i ∧ i < start + src.length then src.getD (i - start) 0 else dst.getD i 0

def seg (l : List Nat) (start len : Nat) : List Nat :=
  (l.drop start).take len

theorem writeSeq_length (dst src : List Nat) (start : Nat) :
    (writeSeq dst start src).length = dst.length := by
  simp [writeSeq]

theorem writeSeq_getD (dst src : List Nat) (start i : Nat) :
    (writeSeq dst start src).getD i 0 =
      if start ≤ i ∧ i < start + src.length ∧ i < dst.length then src.getD (i - start) 0
      else dst.getD i 0 := by
  by_cases h : i < dst.length
  · have : (writeSeq dst start src).getD i 0 =
        if start ≤ i ∧ i < start + src.length then src.getD (i - start) 0 else dst.getD i 0 := by
      simp only [writeSeq, List.getD_eq_getElem?_getD, List.getElem?_map, List.getElem?_range,
        h, if_pos]
      simp [Option.getD]
    rw [this]
    by_cases hr : start ≤ i ∧ i < start + src.length
    · simp [hr, h]
    · have hnot : ¬ (start ≤ i ∧ i < start + src.length ∧ i < dst.length) := by
        intro hc; exact hr ⟨hc.1, hc.2.1⟩
      simp [hr, hnot]
  · have h1 : (writeSeq dst start src).getD i 0 = 0 := by
      apply List.getD_eq_default
      rw [writeSeq_length]
      omega
    have h2 : dst.getD i 0 = 0 := by
      apply List.getD_eq_default
      omega
    have hnot : ¬ (start ≤ i ∧ i < start + src.length ∧ i < dst.length) := by
      intro hc; exact absurd hc.2.2 h
    rw [h1, if_neg hnot, h2]

theorem seg_getD (l : List Nat) (start len j : Nat) (hj : j < len) :
    (seg l start len).getD j 0 = l.getD (start + j) 0 := by
  simp only [seg, List.getD_eq_getElem?_getD, List.getElem?_take, hj, if_pos,
    List.getElem?_drop]

theorem seg_length (l : List Nat) (start len : Nat) :
    (seg l start len).length = min len (l.length - start) := by
  simp [seg]

/-! ### Radio data model (src/radio.rs)

The SHORTS register is modelled as one boolean per shortcut the driver
ever enables; a register write after `shorts.reset()` becomes a record
with exactly the written shortcuts set. -/

/-- Maximum packet length register value / internal buffer capacity. -/
def MAX_PACKET_LENGHT : Nat := 129

/-- State flag for when the radio is transmitting (`1 << 0`). -/
def STATE_SEND : Nat := 1

structure Shorts where
  rxreadyStart : Bool
  phyendStart : Bool
  rxreadyCcastart : Bool
  ccaidleTxen : Bool
  txreadyStart : Bool
  ccabusyDisable : Bool
  phyendDisable : Bool
  readyEdstart : Bool
  edendDisable : Bool
deriving DecidableEq

/-- Model of `shorts.reset()`: all shortcuts disabled. -/
def shortsCleared : Shorts :=
  ⟨false, false, false, false, false, false, false, false, false⟩

/-- Shortcut wiring written by `receive_prepare` and by the DISABLED
branch of `receive_slice`: RXREADY→START and PHYEND→START. -/
def receiveShorts : Shorts :=
  ⟨true, true, false, false, false, false, false, false, false⟩

/-- Shortcut wiring written by `queue_transmission`: RXREADY→CCASTART,
CCAIDLE→TXEN, TXREADY→START, CCABUSY→DISABLE, PHYEND→DISABLE. -/
def transmitShorts : Shorts :=
  ⟨false, false, true, true, true, true, true, false, false⟩

/-- TXPOWER register values used by `set_transmission_power` and `new`. -/
inductive TxPower where
  | pos8dBm | pos7dBm | pos6dBm | pos5dBm | pos4dBm | pos3dBm | pos2dBm
  | zerodBm | neg4dBm | neg8dBm | neg12dBm | neg16dBm | neg20dBm | neg40dBm
deriving DecidableEq

/-- Software-visible state of the `Radio` wrapper plus the peripheral
registers the driver reads or writes on the paths under verification.
`buffer` is the internal DMA `PacketBuffer` (129 bytes); `state` the
bitflag word; `hwDisabled` abstracts `STATE == DISABLED`; `packetptr`
records whether PACKETPTR currently points at the internal buffer;
`tasksRxen` records that the RXEN task strobe was written. -/
structure RadioState where
  eventPhyend : Bool
  eventDisabled : Bool
  eventReady : Bool
  eventCcabusy : Bool
  eventBcmatch : Bool
  buffer : List Nat
  state : Nat
  shorts : Shorts
  frequency : Nat
  txpower : TxPower
  packetptr : Bool
  hwDisabled : Bool
  tasksRxen : Bool
deriving DecidableEq

/-- Errors returned by Radio. -/
inductive RadioError where
  | ccaBusy
deriving DecidableEq

/-- Result of one `receive_slice` poll: `Ok(length)`, `Err(CcaBusy)`, or
the `assert!(buffer.len() >= MAX_PACKET_LENGHT)` contract violation. -/
inductive PollResult where
  | ok (n : Nat)
  | err (e : RadioError)
  | assertFail
deriving DecidableEq

/-- Model of `enter_disabled`: issue the DISABLE task if needed, busy-wait for the
DISABLED event, and clear the event flag.  Its software-visible net
effect is that the hardware is disabled and `events_disabled` is clear;
the busy-wait itself has no other state effect. -/
def enter_disabled (s : RadioState) : RadioState :=
  { s with hwDisabled := true, eventDisabled := false }

/-- Model of `receive_prepare`: disable barrier, reset shortcuts, install the
receive shortcuts, issue the RXEN task. -/
def receive_prepare (s : RadioState) : RadioState :=
  let s1 := enter_disabled s
  { s1 with shorts := receiveShorts, tasksRxen := true }

/-- Model of `set_channel`: panics (flag `false`, state as at the panic) outside
`[11, 26]`, otherwise writes `(channel - 10) * 5` to FREQUENCY. -/
def set_channel (s : RadioState) (channel : Nat) : RadioState × Bool :=
  if channel < 11 ∨ channel > 26 then (s, false)
  else ({ s with frequency := ((channel - 10) * 5) % 256 }, true)

/-- Model of `get_channel`: reads FREQUENCY and reconstructs the channel. -/
def get_channel (s : RadioState) : Nat :=
  s.frequency / 5 + 10

/-- Model of `set_transmission_power`: the `match` over the supported dBm levels;
any other value panics (flag `false`, state as at the panic). -/
def set_transmission_power (s : RadioState) (power : Int) : RadioState × Bool :=
  if power = 8 then ({ s with txpower := TxPower.pos8dBm }, true)
  else if power = 7 then ({ s with txpower := TxPower.pos7dBm }, true)
  else if power = 6 then ({ s with txpower := TxPower.pos6dBm }, true)
  else if power = 5 then ({ s with txpower := TxPower.pos5dBm }, true)
  else if power = 4 then ({ s with txpower := TxPower.pos4dBm }, true)
  else if power = 3 then ({ s with txpower := TxPower.pos3dBm }, true)
  else if power = 2 then ({ s with txpower := TxPower.pos2dBm }, true)
  else if power = 0 then ({ s with txpower := TxPower.zerodBm }, true)
  else if power = -4 then ({ s with txpower := TxPower.neg4dBm }, true)
  else if power = -8 then ({ s with txpower := TxPower.neg8dBm }, true)
  else if power = -12 then ({ s with txpower := TxPower.neg12dBm }, true)
  else if power = -16 then ({ s with txpower := TxPower.neg16dBm }, true)
  else if power = -20 then ({ s with txpower := TxPower.neg20dBm }, true)
  else if power = -40 then ({ s with txpower := TxPower.neg40dBm }, true)
  else (s, false)

/-- The supported power levels, for stating membership. -/
def powerLevels : List Int := [8, 7, 6, 5, 4, 3, 2, 0, -4, -8, -12, -16, -20, -40]

/-! ### `receive_slice` (src/radio.rs:332-412), split into its four
sequential event checks exactly as they appear in the source. -/

/-- PHYEND check: read the PHR from internal buffer slot 0, zero that
slot, discard the frame (length 0) if `STATE_SEND` is set, otherwise
decode bits 0-6 as the length unless bit 7 is set; on a positive length
write `phr &&& 0x7f` to `buffer[0]` and copy
`self.buffer[1..=length]` into `buffer[1..=length]`; clear the PHYEND
event.  Returns the updated radio state, the updated caller buffer and
the decoded length. -/
def phyendStep (s : RadioState) (buffer : List Nat) : RadioState × List Nat × Nat :=
  if s.eventPhyend then
    let phr := s.buffer.getD 0 0
    let sb := { s with buffer := s.buffer.set 0 0 }
    if sb.state &&& STATE_SEND = STATE_SEND then
      ({ sb with eventPhyend := false }, buffer, 0)
    else
      let length := if phr &&& 0x80 = 0 then phr &&& 0x7f else 0
      if 0 < length then
        let buffer2 := writeSeq (buffer.set 0 (phr &&& 0x7f)) 1 (seg sb.buffer 1 length)
        ({ sb with eventPhyend := false }, buffer2, length)
      else
        ({ sb with eventPhyend := false }, buffer, length)
  else (s, buffer, 0)

/-- DISABLED check: when `STATE_SEND` is set, re-install the receive
shortcuts, issue RXEN and zero the state word; always clear the DISABLED
event. -/
def disabledStep (s : RadioState) : RadioState :=
  if s.eventDisabled then
    let s1 :=
      if s.state &&& STATE_SEND = STATE_SEND then
        { s with shorts := receiveShorts, tasksRxen := true, state := 0 }
      else s
    { s1 with eventDisabled := false }
  else s

/-- READY check: re-point PACKETPTR at the internal buffer and clear the
event. -/
def readyStep (s : RadioState) : RadioState :=
  if s.eventReady then { s with packetptr := true, eventReady := false } else s

/-- Model of `receive_slice`: assert the caller buffer capacity, then run the
PHYEND, DISABLED and READY checks; if CCABUSY is set call
`receive_prepare`, clear the event and return `Err(CcaBusy)`; otherwise
acknowledge BCMATCH and return `Ok(length)`. -/
def receive_slice (s : RadioState) (buffer : List Nat) :
    RadioState × List Nat × PollResult :=
  if buffer.length < MAX_PACKET_LENGHT then (s, buffer, PollResult.assertFail)
  else
    let r1 := phyendStep s buffer
    let s2 := disabledStep r1.1
    let s3 := readyStep s2
    if s3.eventCcabusy then
      let s4 := receive_prepare s3
      ({ s4 with eventCcabusy := false }, r1.2.1, PollResult.err RadioError.ccaBusy)
    else
      let s4 := if s3.eventBcmatch then { s3 with eventBcmatch := false } else s3
      (s4, r1.2.1, PollResult.ok r1.2.2)

/-- Model of `queue_transmission` (src/radio.rs:426-459): disable barrier;
`tx_length = data.len() + 2`; assert `tx_length < 128` (flag `false`,
state as at the panic, when violated); write the length header and the
payload into the internal buffer; install the transmit shortcut chain;
issue RXEN; set `STATE_SEND`.  Returns the state, the queued byte count
and the success flag. -/
def queue_transmission (s : RadioState) (data : List Nat) :
    RadioState × Nat × Bool :=
  let s1 := enter_disabled s
  let tx_length := data.length + 2
  if tx_length < MAX_PACKET_LENGHT - 1 then
    let buf := writeSeq (s1.buffer.set 0 (tx_length % 256)) 1 data
    let s2 := { s1 with
      buffer := buf
      shorts := transmitShorts
      tasksRxen := true
      state := s1.state ||| STATE_SEND }
    (s2, data.length, true)
  else (s1, 0, false)

/-! ### Timer model (src/timer.rs)

`counter` is the free-running 32-bit counter value, `cc` the six
capture/compare registers, `eventsCompare` the compare event latches and
`inten` the per-channel interrupt-enable bits. -/

structure TimerState where
  counter : Nat
  cc : List Nat
  eventsCompare : List Bool
  inten : List Bool
deriving DecidableEq

/-- Model of `now()`: issue a capture task on channel 0 (the hardware copies the
counter into `cc[0]`) and read `cc[0]`. -/
def timer_now (t : TimerState) : TimerState × Nat :=
  let t1 := { t with cc := t.cc.set 0 (t.counter % 2 ^ 32) }
  (t1, t1.cc.getD 0 0)

/-- Model of `fire_in(id, elapsed)`: assert `0 < id ≤ 5` (flag `false` on the
panic path); read the current value of compare register `cc[id]`, add
`elapsed` with 32-bit wraparound, write it back; clear the channel's
compare event; enable the channel interrupt for ids 1-3. -/
def fire_in (t : TimerState) (id : Nat) (elapsed : Nat) : TimerState × Bool :=
  if 0 < id ∧ id ≤ 5 then
    let current := t.cc.getD id 0
    let later := (current + elapsed) % 2 ^ 32
    let inten1 :=
      match id with
      | 1 => t.inten.set 1 true
      | 2 => t.inten.set 2 true
      | 3 => t.inten.set 3 true
      | _ => t.inten
    let t1 := { t with
      cc := t.cc.set id later
      eventsCompare := t.eventsCompare.set id false
      inten := inten1 }
    (t1, true)
  else (t, false)

/-! ### Concrete states used by witnesses and counterexamples -/

/-- A 129-byte all-zero caller buffer. -/
def bufZeros : List Nat := List.replicate 129 0

/-- A quiescent radio: no events latched, empty buffer, idle state word. -/
def idleState : RadioState where
  eventPhyend := false
  eventDisabled := false
  eventReady := false
  eventCcabusy := false
  eventBcmatch := false
  buffer := bufZeros
  state := 0
  shorts := receiveShorts
  frequency := 0
  txpower := TxPower.pos4dBm
  packetptr := true
  hwDisabled := false
  tasksRxen := true

/-- Internal buffer after a received frame: PHR 5, payload 1..5, LQI 9. -/
def rxFrame : List Nat := 5 :: 1 :: 2 :: 3 :: 4 :: 5 :: 9 :: List.replicate 122 0

/-- Radio just after that frame: PHYEND latched, SEND clear. -/
def rxState : RadioState := { idleState with eventPhyend := true, buffer := rxFrame }

/-- A timer whose counter reads 100 while all compare registers hold 0. -/
def timerEx : TimerState where
  counter := 100
  cc := [0, 0, 0, 0, 0, 0]
  eventsCompare := [false, false, false, false, false, false]
  inten := [false, false, false, false, false, false]

/-! ### Auxiliary lemmas -/

theorem getD_set_self (l : List Nat) (n v : Nat) (h : n < l.length) :
    (l.set n v).getD n 0 = v := by
  simp [List.getD_eq_getElem?_getD, List.getElem?_set_self h]

theorem getD_set_ne (l : List Nat) (n m v : Nat) (h : n ≠ m) :
    (l.set n v).getD m 0 = l.getD m 0 := by
  simp [List.getD_eq_getElem?_getD, List.getElem?_set_ne h]

/-! ### Claim theorems -/

/-- C7: for every valid channel value c in [11, 26], `set_channel c`
succeeds and a subsequent `get_channel` returns exactly c. -/
theorem set_channel_get_channel_roundtrip (s : RadioState) (c : Nat)
    (h1 : 11 ≤ c) (h2 : c ≤ 26) :
    (set_channel s c).2 = true ∧ get_channel (set_channel s c).1 = c := by
  have hguard : ¬ (c < 11 ∨ c > 26) := by omega
  refine ⟨by simp [set_channel, hguard], ?_⟩
  simp only [set_channel, hguard, if_false, get_channel]
  have h5 : (c - 10) * 5 < 256 := by omega
  rw [Nat.mod_eq_of_lt h5, Nat.mul_div_cancel _ (by omega : 0 < 5)]
  omega

/-- Witness for C7 at channel 15. -/
theorem set_channel_get_channel_roundtrip_witness :
    (set_channel idleState 15).2 = true ∧
    get_channel (set_channel idleState 15).1 = 15 :=
  set_channel_get_channel_roundtrip idleState 15 (by decide) (by decide)

/-- C8: for every channel value outside [11, 26], `set_channel` panics
and leaves the whole radio state — in particular the FREQUENCY register
— unchanged. -/
theorem set_channel_invalid_no_write (s : RadioState) (c : Nat)
    (h : c < 11 ∨ 26 < c) :
    (set_channel s c).2 = false ∧ (set_channel s c).1 = s := by
  have hguard : c < 11 ∨ c > 26 := h
  simp [set_channel, hguard]

/-- Witness for C8 at channel 27. -/
theorem set_channel_invalid_no_write_witness :
    (set_channel idleState 27).2 = false ∧ (set_channel idleState 27).1 = idleState :=
  set_channel_invalid_no_write idleState 27 (Or.inr (by decide))

/-- C9: `set_transmission_power` succeeds exactly on the enumerated
power levels, and outside the set it panics with no register written
(the state is returned unchanged). -/
theorem set_transmission_power_spec (s : RadioState) (p : Int) :
    ((set_transmission_power s p).2 = true ↔ p ∈ powerLevels) ∧
    (p ∉ powerLevels → (set_transmission_power s p).1 = s) := by
  have hmem : p ∈ powerLevels ↔
      p = 8 ∨ p = 7 ∨ p = 6 ∨ p = 5 ∨ p = 4 ∨ p = 3 ∨ p = 2 ∨ p = 0 ∨
      p = -4 ∨ p = -8 ∨ p = -12 ∨ p = -16 ∨ p = -20 ∨ p = -40 := by
    simp [powerLevels]
  by_cases hp : p ∈ powerLevels
  · have htrue : (set_transmission_power s p).2 = true := by
      rw [hmem] at hp
      rcases hp with rfl | rfl | rfl | rfl | rfl | rfl | rfl | rfl | rfl | rfl |
        rfl | rfl | rfl | rfl <;> rfl
    exact ⟨⟨fun _ => hp, fun _ => htrue⟩, fun hc => absurd hp hc⟩
  · have hnot := hp
    rw [hmem] at hnot
    push_neg at hnot
    obtain ⟨n1, n2, n3, n4, n5, n6, n7, n8, n9, n10, n11, n12, n13, n14⟩ := hnot
    unfold set_transmission_power
    rw [if_neg n1, if_neg n2, if_neg n3, if_neg n4, if_neg n5, if_neg n6, if_neg n7,
      if_neg n8, if_neg n9, if_neg n10, if_neg n11, if_neg n12, if_neg n13, if_neg n14]
    exact ⟨by simp [hp], fun _ => rfl⟩

/-- C5: for payloads with `data.len() + 2 < 128`, `queue_transmission`
returns `data.len()`, succeeds, writes the header byte `L + 2` at
internal buffer offset 0 and the payload octets unchanged from offset 1
on. -/
theorem queue_transmission_ok (s : RadioState) (data : List Nat)
    (hlen : data.length + 2 < 128) (hbuf : s.buffer.length = 129) :
    (queue_transmission s data).2.1 = data.length ∧
    (queue_transmission s data).2.2 = true ∧
    (queue_transmission s data).1.buffer.getD 0 0 = data.length + 2 ∧
    ∀ i, i < data.length →
      (queue_transmission s data).1.buffer.getD (i + 1) 0 = data.getD i 0 := by
  have hset : (s.buffer.set 0 ((data.length + 2) % 256)).length = 129 := by
    simp [hbuf]
  have hguard : data.length + 2 < MAX_PACKET_LENGHT - 1 := by
    simp only [MAX_PACKET_LENGHT]; omega
  simp only [queue_transmission, enter_disabled]
  rw [if_pos hguard]
  refine ⟨rfl, rfl, ?_, ?_⟩
  · rw [writeSeq_getD]
    have hno : ¬ (1 ≤ 0 ∧ 0 < 1 + data.length ∧
        0 < (s.buffer.set 0 ((data.length + 2) % 256)).length) := by
      intro hc; omega
    rw [if_neg hno, getD_set_self _ _ _ (by omega),
      Nat.mod_eq_of_lt (by omega)]
  · intro i hi
    rw [writeSeq_getD]
    have hyes : 1 ≤ i + 1 ∧ i + 1 < 1 + data.length ∧
        i + 1 < (s.buffer.set 0 ((data.length + 2) % 256)).length := by
      refine ⟨by omega, by omega, ?_⟩
      rw [hset]; omega
    rw [if_pos hyes]
    simp

/-- Witness for C5 with payload [1, 2, 3]. -/
theorem queue_transmission_ok_witness :
    (queue_transmission idleState [1, 2, 3]).2.1 = 3 ∧
    (queue_transmission idleState [1, 2, 3]).1.buffer.getD 0 0 = 5 ∧
    (queue_transmission idleState [1, 2, 3]).1.buffer.getD 2 0 = 2 :=
  ⟨(queue_transmission_ok idleState [1, 2, 3] (by decide) (by decide)).1,
   (queue_transmission_ok idleState [1, 2, 3] (by decide) (by decide)).2.2.1,
   (queue_transmission_ok idleState [1, 2, 3] (by decide) (by decide)).2.2.2 1 (by decide)⟩

/-- C6: for payloads with `data.len() + 2 ≥ 128`, `queue_transmission`
fails the `assert!` before any buffer write, so the internal frame
buffer is unmodified. -/
theorem queue_transmission_too_long (s : RadioState) (data : List Nat)
    (h : 128 ≤ data.length + 2) :
    (queue_transmission s data).2.2 = false ∧
    (queue_transmission s data).1.buffer = s.buffer := by
  have hguard : ¬ (data.length + 2 < MAX_PACKET_LENGHT - 1) := by
    simp only [MAX_PACKET_LENGHT]; omega
  simp [queue_transmission, enter_disabled, hguard]

/-- Witness for C6 with a 126-octet payload. -/
theorem queue_transmission_too_long_witness :
    (queue_transmission idleState (List.replicate 126 0)).2.2 = false ∧
    (queue_transmission idleState (List.replicate 126 0)).1.buffer = idleState.buffer :=
  queue_transmission_too_long idleState (List.replicate 126 0) (by decide)

/-- C2 counterexample: with all compare registers at 0 and the counter
at 100, `fire_in(1, 5)` leaves CC[1] = 5, while `now()` at the moment of
the call reads 100, so CC[1] ≠ (now + 5) mod 2^32 = 105: `fire_in` does
not add the delay to the current counter value. -/
theorem fire_in_not_now_plus_delay :
    (fire_in timerEx 1 5).2 = true ∧
    (fire_in timerEx 1 5).1.cc.getD 1 0 ≠ ((timer_now timerEx).2 + 5) % 2 ^ 32 := by
  decide

/-- C2 as amended: for every channel id in 1..=5 and every delay d
(wraparound included), `fire_in(id, d)` sets the compare register CC[id]
to the value CC[id] held immediately before the call, plus d, modulo
2^32 — the base of the addition is the channel's previous compare value,
not `now()`. -/
theorem fire_in_adds_to_compare (t : TimerState) (id d : Nat)
    (h1 : 0 < id) (h2 : id ≤ 5) (hcc : id < t.cc.length) :
    (fire_in t id d).2 = true ∧
    (fire_in t id d).1.cc.getD id 0 = (t.cc.getD id 0 + d) % 2 ^ 32 := by
  simp only [fire_in]
  rw [if_pos (show 0 < id ∧ id ≤ 5 from ⟨h1, h2⟩)]
  exact ⟨rfl, getD_set_self _ _ _ hcc⟩

/-- Witness for amended C2: channel 2, delay 2^32 - 1 (wraps). -/
theorem fire_in_adds_to_compare_witness :
    (fire_in timerEx 2 4294967295).2 = true ∧
    (fire_in timerEx 2 4294967295).1.cc.getD 2 0 =
      (timerEx.cc.getD 2 0 + 4294967295) % 2 ^ 32 :=
  fire_in_adds_to_compare timerEx 2 4294967295 (by decide) (by decide) (by decide)

/-! ### Structural lemmas about the `receive_slice` phases -/

theorem phyendStep_eventCcabusy (s : RadioState) (buffer : List Nat) :
    (phyendStep s buffer).1.eventCcabusy = s.eventCcabusy := by
  simp only [phyendStep]
  repeat' split
  all_goals rfl

theorem phyendStep_state (s : RadioState) (buffer : List Nat) :
    (phyendStep s buffer).1.state = s.state := by
  simp only [phyendStep]
  repeat' split
  all_goals rfl

theorem phyendStep_eventDisabled (s : RadioState) (buffer : List Nat) :
    (phyendStep s buffer).1.eventDisabled = s.eventDisabled := by
  simp only [phyendStep]
  repeat' split
  all_goals rfl

theorem phyendStep_eventReady (s : RadioState) (buffer : List Nat) :
    (phyendStep s buffer).1.eventReady = s.eventReady := by
  simp only [phyendStep]
  repeat' split
  all_goals rfl

theorem phyendStep_eventBcmatch (s : RadioState) (buffer : List Nat) :
    (phyendStep s buffer).1.eventBcmatch = s.eventBcmatch := by
  simp only [phyendStep]
  repeat' split
  all_goals rfl

theorem disabledStep_eventCcabusy (s : RadioState) :
    (disabledStep s).eventCcabusy = s.eventCcabusy := by
  simp only [disabledStep]
  repeat' split
  all_goals rfl

theorem disabledStep_state (s : RadioState) :
    (disabledStep s).state =
      if s.eventDisabled = true ∧ s.state &&& STATE_SEND = STATE_SEND then 0
      else s.state := by
  simp only [disabledStep]
  repeat' split
  all_goals simp_all

theorem readyStep_eventCcabusy (s : RadioState) :
    (readyStep s).eventCcabusy = s.eventCcabusy := by
  unfold readyStep
  split_ifs <;> rfl

theorem readyStep_state (s : RadioState) :
    (readyStep s).state = s.state := by
  unfold readyStep
  split_ifs <;> rfl

/-- With enough caller-buffer capacity and no CCABUSY latched, a poll
returns `Ok` of the PHYEND-decoded length and the caller buffer produced
by the PHYEND check. -/
theorem receive_slice_ok_parts (s : RadioState) (buffer : List Nat)
    (hbuf : MAX_PACKET_LENGHT ≤ buffer.length) (hcca : s.eventCcabusy = false) :
    (receive_slice s buffer).2.1 = (phyendStep s buffer).2.1 ∧
    (receive_slice s buffer).2.2 = PollResult.ok (phyendStep s buffer).2.2 := by
  have hb : ¬ buffer.length < MAX_PACKET_LENGHT := by omega
  have hc : (readyStep (disabledStep (phyendStep s buffer).1)).eventCcabusy = false := by
    rw [readyStep_eventCcabusy, disabledStep_eventCcabusy, phyendStep_eventCcabusy, hcca]
  unfold receive_slice
  rw [if_neg hb, if_neg (by rw [hc]; exact Bool.false_ne_true)]
  split_ifs <;> exact ⟨rfl, rfl⟩

/-- The caller buffer and result of a poll never depend on the DISABLED,
READY or BCMATCH handling; in the CCABUSY case the poll yields the
CcaBusy error with the PHYEND-check buffer. -/
theorem receive_slice_ccabusy_parts (s : RadioState) (buffer : List Nat)
    (hbuf : MAX_PACKET_LENGHT ≤ buffer.length) (hcca : s.eventCcabusy = true) :
    (receive_slice s buffer).2.1 = (phyendStep s buffer).2.1 ∧
    (receive_slice s buffer).2.2 = PollResult.err RadioError.ccaBusy ∧
    (receive_slice s buffer).1.eventCcabusy = false ∧
    (receive_slice s buffer).1.shorts = receiveShorts ∧
    (receive_slice s buffer).1.tasksRxen = true ∧
    (receive_slice s buffer).1.hwDisabled = true := by
  have hb : ¬ buffer.length < MAX_PACKET_LENGHT := by omega
  have hc : (readyStep (disabledStep (phyendStep s buffer).1)).eventCcabusy = true := by
    rw [readyStep_eventCcabusy, disabledStep_eventCcabusy, phyendStep_eventCcabusy, hcca]
  unfold receive_slice
  rw [if_neg hb, if_pos hc]
  exact ⟨rfl, rfl, rfl, rfl, rfl, rfl⟩

/-- The state word after a poll is the one left by the DISABLED check:
no later check of the poll touches it. -/
theorem receive_slice_state (s : RadioState) (buffer : List Nat)
    (hbuf : MAX_PACKET_LENGHT ≤ buffer.length) :
    (receive_slice s buffer).1.state =
      (disabledStep (phyendStep s buffer).1).state := by
  have hb : ¬ buffer.length < MAX_PACKET_LENGHT := by omega
  simp only [receive_slice]
  rw [if_neg hb]
  split
  · simp [receive_prepare, enter_disabled, readyStep_state]
  · split
    · simp [readyStep_state]
    · simp [readyStep_state]

/-- While `STATE_SEND` is set the PHYEND check discards the frame: the
caller buffer is untouched and the decoded length is 0. -/
theorem phyendStep_send (s : RadioState) (buffer : List Nat)
    (hsend : s.state &&& STATE_SEND = STATE_SEND) :
    (phyendStep s buffer).2.1 = buffer ∧ (phyendStep s buffer).2.2 = 0 := by
  simp only [phyendStep]
  repeat' split
  all_goals simp_all

/-- Caller-buffer indices above the decoded length are never written by
the PHYEND check. -/
theorem phyendStep_getD_high (s : RadioState) (buffer : List Nat) (i : Nat)
    (hi : (phyendStep s buffer).2.2 < i) :
    ((phyendStep s buffer).2.1).getD i 0 = buffer.getD i 0 := by
  revert hi
  simp only [phyendStep]
  repeat' split
  all_goals intro hi
  all_goals try rfl
  · have hi2 : s.buffer.getD 0 0 &&& 127 < i := hi
    have hpos : 0 < s.buffer.getD 0 0 &&& 127 := by assumption
    show (writeSeq (buffer.set 0 (s.buffer.getD 0 0 &&& 127)) 1
        (seg (s.buffer.set 0 0) 1 (s.buffer.getD 0 0 &&& 127))).getD i 0 = buffer.getD i 0
    have hsrc : (seg (s.buffer.set 0 0) 1 (s.buffer.getD 0 0 &&& 127)).length ≤
        s.buffer.getD 0 0 &&& 127 := by
      rw [seg_length]; omega
    have hcnot : ¬ (1 ≤ i ∧
        i < 1 + (seg (s.buffer.set 0 0) 1 (s.buffer.getD 0 0 &&& 127)).length ∧
        i < (buffer.set 0 (s.buffer.getD 0 0 &&& 127)).length) := by
      intro hc
      have h21 := hc.2.1
      omega
    rw [writeSeq_getD, if_neg hcnot]
    exact getD_set_ne _ _ _ _ (by omega)
  · exact absurd (by assumption : (0 : Nat) < 0) (by omega)

/-- Radio with a transmission armed (`STATE_SEND` set) and both PHYEND
and DISABLED latched, as after a completed transmission. -/
def sendState : RadioState :=
  { idleState with
    state := STATE_SEND
    eventPhyend := true
    eventDisabled := true
    buffer := rxFrame }

/-- Radio with CCABUSY latched while a received frame is also pending. -/
def ccaState : RadioState := { rxState with eventCcabusy := true }

/-- C3: while `STATE_SEND` is set, a poll never copies into the caller
buffer and (absent a CCABUSY error) reports length 0 even when PHYEND is
latched; the flag is cleared by a poll exactly when that poll processes a
latched DISABLED event. -/
theorem send_window_invariant (s : RadioState) (buffer : List Nat)
    (hbuf : MAX_PACKET_LENGHT ≤ buffer.length)
    (hsend : s.state &&& STATE_SEND = STATE_SEND) :
    (receive_slice s buffer).2.1 = buffer ∧
    (s.eventCcabusy = false → (receive_slice s buffer).2.2 = PollResult.ok 0) ∧
    ((receive_slice s buffer).1.state &&& STATE_SEND ≠ STATE_SEND →
      s.eventDisabled = true) ∧
    (s.eventDisabled = true →
      (receive_slice s buffer).1.state &&& STATE_SEND ≠ STATE_SEND) := by
  have hps := phyendStep_send s buffer hsend
  have hstate : (receive_slice s buffer).1.state =
      if s.eventDisabled = true ∧ s.state &&& STATE_SEND = STATE_SEND then 0
      else s.state := by
    rw [receive_slice_state s buffer hbuf, disabledStep_state,
      phyendStep_eventDisabled, phyendStep_state]
  refine ⟨?_, ?_, ?_, ?_⟩
  · cases hcca : s.eventCcabusy with
    | false => rw [(receive_slice_ok_parts s buffer hbuf hcca).1, hps.1]
    | true => rw [(receive_slice_ccabusy_parts s buffer hbuf hcca).1, hps.1]
  · intro hcca
    rw [(receive_slice_ok_parts s buffer hbuf hcca).2, hps.2]
  · intro hne
    by_contra hdis
    have hfalse : s.eventDisabled = false := by
      cases h : s.eventDisabled
      · rfl
      · exact absurd h hdis
    rw [hstate, if_neg (by simp [hfalse])] at hne
    exact hne hsend
  · intro hdis
    rw [hstate, if_pos ⟨hdis, hsend⟩]
    simp [STATE_SEND]

/-- Witness for C3: SEND armed, PHYEND and DISABLED latched — the frame
is discarded, length 0 is reported and the flag is cleared. -/
theorem send_window_invariant_witness :
    (receive_slice sendState bufZeros).2.1 = bufZeros ∧
    (receive_slice sendState bufZeros).2.2 = PollResult.ok 0 ∧
    (receive_slice sendState bufZeros).1.state &&& STATE_SEND ≠ STATE_SEND := by
  have h := send_window_invariant sendState bufZeros (by decide) (by decide)
  exact ⟨h.1, h.2.1 (by decide), h.2.2.2 (by decide)⟩

/-- C4: a poll with CCABUSY latched runs `receive_prepare` (disable
barrier, receive shortcuts, RXEN task), clears the CCABUSY event and
returns the CcaBusy error — regardless of whatever length the PHYEND
check of the same poll decoded. -/
theorem ccabusy_short_circuits (s : RadioState) (buffer : List Nat)
    (hbuf : MAX_PACKET_LENGHT ≤ buffer.length) (hcca : s.eventCcabusy = true) :
    (receive_slice s buffer).2.2 = PollResult.err RadioError.ccaBusy ∧
    (receive_slice s buffer).1.eventCcabusy = false ∧
    (receive_slice s buffer).1.shorts = receiveShorts ∧
    (receive_slice s buffer).1.tasksRxen = true ∧
    (receive_slice s buffer).1.hwDisabled = true := by
  have h := receive_slice_ccabusy_parts s buffer hbuf hcca
  exact ⟨h.2.1, h.2.2.1, h.2.2.2.1, h.2.2.2.2.1, h.2.2.2.2.2⟩

/-- Witness for C4: CCABUSY latched while PHYEND holds a 5-octet frame —
the error return wins. -/
theorem ccabusy_short_circuits_witness :
    (receive_slice ccaState bufZeros).2.2 = PollResult.err RadioError.ccaBusy ∧
    (receive_slice ccaState bufZeros).1.eventCcabusy = false ∧
    (receive_slice ccaState bufZeros).1.shorts = receiveShorts :=
  ⟨(ccabusy_short_circuits ccaState bufZeros (by decide) (by decide)).1,
   (ccabusy_short_circuits ccaState bufZeros (by decide) (by decide)).2.1,
   (ccabusy_short_circuits ccaState bufZeros (by decide) (by decide)).2.2.1⟩

/-- C10: a poll that returns `Ok(L)` with `L > 0` writes only indices
0..L of the caller buffer; every index above L — including index L+1,
where the documented wire format places the LQI octet — is unchanged. -/
theorem receive_slice_above_length_unchanged (s : RadioState)
    (buffer : List Nat) (L : Nat) (hLpos : 0 < L)
    (hok : (receive_slice s buffer).2.2 = PollResult.ok L) :
    ∀ i, L < i → ((receive_slice s buffer).2.1).getD i 0 = buffer.getD i 0 := by
  intro i hi
  by_cases hb : buffer.length < MAX_PACKET_LENGHT
  · unfold receive_slice at hok
    rw [if_pos hb] at hok
    exact absurd hok (by simp)
  · have hb2 : MAX_PACKET_LENGHT ≤ buffer.length := by omega
    by_cases hcca : s.eventCcabusy = true
    · have h := receive_slice_ccabusy_parts s buffer hb2 hcca
      rw [h.2.1] at hok
      exact absurd hok (by simp)
    · have hcf : s.eventCcabusy = false := by
        cases h : s.eventCcabusy
        · rfl
        · exact absurd h hcca
      have h := receive_slice_ok_parts s buffer hb2 hcf
      rw [h.1]
      rw [h.2] at hok
      have hlen := PollResult.ok.inj hok
      refine phyendStep_getD_high s buffer i ?_
      omega

/-- Witness for C10: the 5-octet frame poll leaves index 7 of the caller
buffer untouched. -/
theorem receive_slice_above_length_unchanged_witness :
    ((receive_slice rxState bufZeros).2.1).getD 7 0 = bufZeros.getD 7 0 :=
  receive_slice_above_length_unchanged rxState bufZeros 5 (by decide) (by decide)
    7 (by decide)

/-- C1 counterexample: internal buffer `[5, 1, 2, 3, 4, 5, 9, 0, ...]`
(header 0x05, payload octets 1..5, LQI octet 9), caller buffer all
zeros, PHYEND latched, SEND clear.  The poll returns Ok(5) but the
caller buffer holds 0 — not the internal buffer's LQI octet 9 — at index
6, so the caller buffer does not match the internal buffer over indices
0..=6 as the claim states. -/
theorem receive_slice_lqi_not_copied :
    (receive_slice rxState bufZeros).2.2 = PollResult.ok 5 ∧
    rxState.buffer.getD 6 0 = 9 ∧
    ((receive_slice rxState bufZeros).2.1).getD 6 0 ≠ 9 := by
  refine ⟨by decide, by decide, by decide⟩

/-- C1 as amended: with PHYEND latched, SEND clear, no CCABUSY, and an
internal buffer whose header octet is 5, the poll returns Ok(5), writes
5 to caller index 0 and the internal octets 1..=5 to caller indices
1..=5, and leaves every caller index from 6 (the LQI position) upward
unchanged: the trailing LQI octet is not copied. -/
theorem receive_header5_copies_payload_only (s : RadioState)
    (buffer : List Nat)
    (hbuf : MAX_PACKET_LENGHT ≤ buffer.length)
    (hsbuf : s.buffer.length = 129)
    (hphy : s.eventPhyend = true)
    (hsend : ¬ s.state &&& STATE_SEND = STATE_SEND)
    (hcca : s.eventCcabusy = false)
    (hphr : s.buffer.getD 0 0 = 5) :
    (receive_slice s buffer).2.2 = PollResult.ok 5 ∧
    ((receive_slice s buffer).2.1).getD 0 0 = 5 ∧
    (∀ i, 1 ≤ i → i ≤ 5 →
      ((receive_slice s buffer).2.1).getD i 0 = s.buffer.getD i 0) ∧
    (∀ i, 6 ≤ i →
      ((receive_slice s buffer).2.1).getD i 0 = buffer.getD i 0) := by
  have hbuf129 : (129 : Nat) ≤ buffer.length := hbuf
  have hg : s.buffer[0]?.getD 0 = 5 := by
    rw [← List.getD_eq_getElem?_getD]
    exact hphr
  have h128 : (5 : Nat) &&& 128 = 0 := by decide
  have h127 : (5 : Nat) &&& 127 = 5 := by decide
  have hparts := receive_slice_ok_parts s buffer hbuf hcca
  have hstep21 : (phyendStep s buffer).2.1 =
      writeSeq (buffer.set 0 5) 1 (seg (s.buffer.set 0 0) 1 5) := by
    simp [phyendStep, hphy, hg, h128, h127, hsend]
  have hstep22 : (phyendStep s buffer).2.2 = 5 := by
    simp [phyendStep, hphy, hg, h128, h127, hsend]
  have hseglen : (seg (s.buffer.set 0 0) 1 5).length = 5 := by
    rw [seg_length]
    simp [hsbuf]
  have hsetlen : (buffer.set 0 5).length = buffer.length := by simp
  refine ⟨?_, ?_, ?_, ?_⟩
  · rw [hparts.2, hstep22]
  · rw [hparts.1, hstep21, writeSeq_getD]
    rw [if_neg (by omega)]
    exact getD_set_self _ _ _ (by omega)
  · intro i h1 h5
    rw [hparts.1, hstep21, writeSeq_getD,
      if_pos ⟨h1, by rw [hseglen]; omega, by rw [hsetlen]; omega⟩,
      seg_getD _ _ _ _ (by omega)]
    have hidx : 1 + (i - 1) = i := by omega
    rw [hidx]
    exact getD_set_ne _ _ _ _ (by omega)
  · intro i h6
    rw [hparts.1, hstep21, writeSeq_getD]
    rw [if_neg (by rw [hseglen, hsetlen]; omega)]
    exact getD_set_ne _ _ _ _ (by omega)

/-- Witness for amended C1 at the concrete 5-octet frame. -/
theorem receive_header5_copies_payload_only_witness :
    (receive_slice rxState bufZeros).2.2 = PollResult.ok 5 ∧
    ((receive_slice rxState bufZeros).2.1).getD 0 0 = 5 ∧
    ((receive_slice rxState bufZeros).2.1).getD 3 0 = rxState.buffer.getD 3 0 ∧
    ((receive_slice rxState bufZeros).2.1).getD 6 0 = bufZeros.getD 6 0 := by
  have h := receive_header5_copies_payload_only rxState bufZeros (by decide)
    (by decide) (by decide) (by decide) (by decide) (by decide)
  exact ⟨h.1, h.2.1, h.2.2.1 3 (by decide) (by decide), h.2.2.2 6 (by decide)⟩

end PsilaNrf52
